import Mathlib

/-!
Verification of the 13F ingestion/normalization pipeline.

Shallow embedding of the core of the repository:
  * `src/utils.py`   : `parse_quarter`, `format_quarter`, the on-disk `Cache`
  * `src/parser.py`  : `ThirteenFParser` (section extraction, file-type
    detection, XML / text extraction, dataframe normalization and cleaning)
  * `src/13f_scraper/logic.py` : `ThirteenFProcessor` (target-filing
    selection, first-time-filer detection, holdings filters)
  * `src/sec_client.py` : `SECClient._make_request` retry policy and
    `get_company_submissions`

Modelling conventions:
  * Python `str` is modelled as `List Char` (`PyStr`) in the parser, and as
    Lean `String` where only whole-string comparison is needed.
  * Python `datetime` values are modelled as integer ticks (one day is
    86400 ticks); `isoformat`/`fromisoformat` become a decimal
    renderer/parser pair on those ticks.
  * pandas `DataFrame`s are modelled as `List Row` with `Cell` entries; a
    missing value (NaN) is `Cell.na`.
  * Fallible library calls at the boundary of the embedded code
    (`xml.etree.ElementTree.fromstring`, `BeautifulSoup(...).find("table")`,
    `requests.Session.request`) are supplied as explicit oracles, so the
    embedded functions are total and every exception path of the source is
    an explicit `Except`/`Option` case.
-/

/-! ### Python string primitives (on `List Char`) -/

abbrev PyStr := List Char

/-- Python `str.strip()` character class (whitespace). -/
def pyIsSpace (c : Char) : Bool :=
  c = ' ' || c = '\t' || c = '\n' || c = '\r' || c = '\x0b' || c = '\x0c'

/-- Python `str.strip()`: drop leading and trailing whitespace. -/
def pyStrip (s : PyStr) : PyStr :=
  ((s.dropWhile pyIsSpace).reverse.dropWhile pyIsSpace).reverse

/-- Python `str.lower()` (ASCII case folding suffices for this pipeline). -/
def pyLower (s : PyStr) : PyStr := s.map Char.toLower

/-- Index-carrying scan for `str.find`: first index at which `pat` is a
prefix of the remaining haystack. -/
def strFindAux (pat : PyStr) : PyStr → Nat → Option Nat
  | hay, i =>
    if pat.isPrefixOf hay then some i
    else
      match hay with
      | [] => none
      | _ :: t => strFindAux pat t (i + 1)

/-- Python `hay.find(pat)`, with `none` for `-1`. -/
def strFind (hay pat : PyStr) : Option Nat := strFindAux pat hay 0

/-- Python `hay.find(pat, start)`. -/
def strFindFrom (hay pat : PyStr) (start : Nat) : Option Nat :=
  match strFind (hay.drop start) pat with
  | some i => some (start + i)
  | none => none

/-- Python `hay.rfind(pat)`: index of the last occurrence. -/
def strRfindAux (pat : PyStr) : PyStr → Nat → Option Nat → Option Nat
  | hay, i, best =>
    let best := if pat.isPrefixOf hay then some i else best
    match hay with
    | [] => best
    | _ :: t => strRfindAux pat t (i + 1) best

/-- Python `hay.rfind(pat)`, with `none` for `-1`. -/
def strRfind (hay pat : PyStr) : Option Nat := strRfindAux pat hay 0 none

/-- Python `pat in hay` substring test. -/
def strContains (hay pat : PyStr) : Bool := (strFind hay pat).isSome

/-- Python slice `s[a:b]` (for `0 <= a`, `0 <= b`). -/
def pySlice (s : PyStr) (a b : Nat) : PyStr := (s.take b).drop a

/-- Python `s.startswith(pat)`. -/
def pyStartsWith (s pat : PyStr) : Bool := pat.isPrefixOf s

/-- Python `s.split(sep)` for a one-character separator. -/
def pySplitAux (sep : Char) : PyStr → PyStr → List PyStr
  | [], cur => [cur.reverse]
  | c :: rest, cur =>
    if c = sep then cur.reverse :: pySplitAux sep rest []
    else pySplitAux sep rest (c :: cur)

/-- Python `s.split(sep)` for a one-character separator. -/
def pySplit (s : PyStr) (sep : Char) : List PyStr := pySplitAux sep s []

/-- Python `s.split(sep, 1)`: split at the first occurrence only;
`none` when the separator does not occur. -/
def pySplitOnce (s : PyStr) (sep : Char) : Option (PyStr × PyStr) :=
  let pre := s.takeWhile (fun c => c ≠ sep)
  match s.dropWhile (fun c => c ≠ sep) with
  | [] => none
  | _ :: post => some (pre, post)

/-- Python string `<` (lexicographic on code points). -/
def pyStrLt : PyStr → PyStr → Bool
  | [], [] => false
  | [], _ :: _ => true
  | _ :: _, [] => false
  | a :: as, b :: bs =>
    if a.toNat < b.toNat then true
    else if b.toNat < a.toNat then false
    else pyStrLt as bs

/-- Python string `<=`. -/
def pyStrLe (a b : PyStr) : Bool := !(pyStrLt b a)

/-! ### Python numeric primitives -/

/-- Value of an ASCII digit. -/
def digitVal (c : Char) : Nat := c.toNat - 48

/-- Character of a digit value `0..9`. -/
def digitChar10 (d : Nat) : Char := Char.ofNat (48 + d)

/-- Accumulate a digit string into a natural number. -/
def digitsVal (cs : PyStr) : Nat := cs.foldl (fun a c => 10 * a + digitVal c) 0

/-- Parse a non-empty all-digit string. -/
def parseDigits (cs : PyStr) : Option Nat :=
  if cs ≠ [] ∧ cs.all Char.isDigit then some (digitsVal cs) else none

/-- Fuel-driven decimal rendering of a natural number (the fuel is always
sufficient at `natRender`, proved below). -/
def natRenderAux : Nat → Nat → PyStr
  | 0, _ => []
  | fuel + 1, n =>
    if n < 10 then [digitChar10 n]
    else natRenderAux fuel (n / 10) ++ [digitChar10 (n % 10)]

/-- Decimal rendering of a natural number (Python `str(n)` for `n >= 0`). -/
def natRender (n : Nat) : PyStr := natRenderAux (n + 1) n

/-- Python `str(i)` for an `int`. -/
def intRender (i : Int) : PyStr :=
  if i < 0 then '-' :: natRender i.natAbs else natRender i.natAbs

/-- Python `int(s)`: optional surrounding whitespace, optional sign,
then a non-empty digit string; `none` models `ValueError`. -/
def pyIntParse (s : PyStr) : Option Int :=
  match pyStrip s with
  | '-' :: rest => (parseDigits rest).map (fun n => -(n : Int))
  | '+' :: rest => (parseDigits rest).map (fun n => (n : Int))
  | rest => (parseDigits rest).map (fun n => (n : Int))

/-- Python `float(s)` restricted to plain decimal literals: optional
surrounding whitespace, optional sign, digits with at most one point and
at least one digit overall.  `none` models `ValueError`. -/
def pyFloatParse (s : PyStr) : Option ℚ :=
  let core := fun (t : PyStr) =>
    let ip := t.takeWhile Char.isDigit
    let rest := t.drop ip.length
    match rest with
    | [] => if ip = [] then none else some ((digitsVal ip : Int) : ℚ)
    | '.' :: fp =>
      if fp.all Char.isDigit ∧ (ip ≠ [] ∨ fp ≠ []) then
        some (((digitsVal ip : Int) : ℚ) + (digitsVal fp : ℚ) / ((10 : ℚ) ^ fp.length))
      else none
    | _ => none
  match pyStrip s with
  | '-' :: rest => (core rest).map (fun q => -q)
  | '+' :: rest => core rest
  | rest => core rest

/-- Truncation toward zero, as Python `int(float)`. -/
def ratTrunc (q : ℚ) : Int := Int.tdiv q.num (Int.ofNat q.den)

/-! ### Python dict (insertion ordered, string keys) -/

/-- A pandas / JSON cell value; `na` models NaN (a missing value). -/
inductive Cell where
  | na
  | cstr (s : String)
  | cint (n : Int)
  | crat (q : ℚ)
deriving DecidableEq, Repr

/-- Python truthiness of a cell value. -/
def cellTruthy : Cell → Bool
  | .na => false
  | .cstr s => s ≠ ""
  | .cint n => n ≠ 0
  | .crat q => q ≠ 0

/-- An insertion-ordered Python dict with string keys. -/
abbrev PyDict (α : Type) := List (String × α)

/-- Python `d[k] = v`: overwrite in place (keeping the key position) when
the key exists, append otherwise. -/
def pyDictSet {α : Type} : PyDict α → String → α → PyDict α
  | [], k, v => [(k, v)]
  | (k0, v0) :: rest, k, v =>
    if k0 = k then (k0, v) :: rest else (k0, v0) :: pyDictSet rest k v

/-- Python `d.get(k)`. -/
def pyDictGet {α : Type} : PyDict α → String → Option α
  | [], _ => none
  | (k0, v0) :: rest, k => if k0 = k then some v0 else pyDictGet rest k

/-- Python `k in d`. -/
def pyDictHas {α : Type} (d : PyDict α) (k : String) : Bool :=
  (pyDictGet d k).isSome

/-! ### Stable first-occurrence deduplication (pandas `drop_duplicates(keep="first")`) -/

/-- Keep each element whose key has not been seen before. -/
def pyDedupF {α β : Type} [DecidableEq β] (key : α → β) (seen : List β) :
    List α → List α
  | [] => []
  | x :: xs =>
    if key x ∈ seen then pyDedupF key seen xs
    else x :: pyDedupF key (key x :: seen) xs

/-! ## `src/utils.py` -/

/-- `utils.parse_quarter`: parse a `YYYYQn` quarter string into
`(year, quarter)`; `Except.error` models the raised `ValueError`.
Faithful to the source: the character at index 4 is never inspected;
`int(quarter_str[:4])` and `int(quarter_str[5])` are attempted and any
`ValueError` (including the explicit range checks) is re-raised as
"Invalid quarter format". -/
def parse_quarter (s : String) : Except String (Int × Int) :=
  let cs := s.data
  if cs.length ≠ 6 then
    .error "Quarter must be in format YYYYQn (e.g., 2024Q4)"
  else
    match pyIntParse (cs.take 4), pyIntParse (cs.drop 5) with
    | some year, some quarter =>
      if quarter < 1 ∨ quarter > 4 then .error ("Invalid quarter format: " ++ s)
      else if year < 2000 ∨ year > 2030 then .error ("Invalid quarter format: " ++ s)
      else .ok (year, quarter)
    | _, _ => .error ("Invalid quarter format: " ++ s)

/-- `utils.format_quarter`: the year, the letter Q, and the quarter,
concatenated as by the f-string of the source. -/
def format_quarter (year : Int) (quarter : Int) : String :=
  ⟨intRender year ++ ['Q'] ++ intRender quarter⟩

/-! ## `src/utils.py` — `Cache`

The tick model of time: `datetime` values are integer ticks, one day is
86400 ticks; `isoformat` renders the tick count in decimal and
`fromisoformat` parses it back (`none` models the `ValueError` raised on a
malformed timestamp string). -/

/-- Ticks per day (`timedelta.days` counts whole days). -/
def ticksPerDay : Int := 86400

/-- `datetime.isoformat` under the tick model. -/
def tsRender (t : Nat) : String := ⟨natRender t⟩

/-- `datetime.fromisoformat` under the tick model. -/
def tsParse (s : String) : Option Nat := parseDigits s.data

/-- `timedelta.days`: floor division of the tick difference by one day. -/
def pyTimedeltaDays (diff : Int) : Int := Int.fdiv diff ticksPerDay

/-- The state of one cache file on disk.  `unreadable` is a file that
exists but whose `open`/`read` raises an `OSError`; `corrupt` is a
readable file whose contents `json.load` rejects. -/
inductive CacheFile where
  | unreadable
  | corrupt
  | good (data : PyDict String)
deriving DecidableEq, Repr

/-- An exception escaping `Cache.get`. -/
inductive CacheErr where
  | osError
deriving DecidableEq, Repr

/-- `utils.Cache.get` for one key, given the state of the file for that key
(`none` = the file does not exist) and the current time `now` (ticks).
The `try` block catches exactly `json.JSONDecodeError` and `ValueError`
(corrupt JSON, malformed timestamp); an `OSError` from opening an
existing-but-unreadable file is not caught and escapes as `.error`. -/
def cacheGet (file : Option CacheFile) (now : Nat) :
    Except CacheErr (Option (PyDict String)) :=
  match file with
  | none => .ok none
  | some .unreadable => .error .osError
  | some .corrupt => .ok none
  | some (.good data) =>
    match pyDictGet data "timestamp" with
    | none => .ok none
    | some ts =>
      match tsParse ts with
      | none => .ok none
      | some cacheTime =>
        if pyTimedeltaDays ((now : Int) - (cacheTime : Int)) < 1 then .ok (some data)
        else .ok none

/-- `utils.Cache.set` for one key: mutates the dict of the caller in place by
inserting/overwriting the `timestamp` key, then writes that same dict to
the file.  The first component is the dict of the caller after the call (the
in-place mutation made explicit), the second is the file written. -/
def cacheSet (data : PyDict String) (now : Nat) : PyDict String × CacheFile :=
  let stamped := pyDictSet data "timestamp" (tsRender now)
  (stamped, .good stamped)

/-! ## `src/parser.py` — data model

A pandas DataFrame of holdings is a `List Row`; the twelve columns are the
keys of the holding dict built by `ThirteenFParser`. -/

/-- One row of the normalized holdings table (the holding dict of
`parser.py`, in source order). -/
structure Row where
  cusip : Cell
  issuer_name : Cell
  class_title : Cell
  value_usd : Cell
  ssh_prnamt : Cell
  ssh_prnamt_type : Cell
  put_call : Cell
  investment_discretion : Cell
  other_managers : Cell
  voting_authority_sole : Cell
  voting_authority_shared : Cell
  voting_authority_none : Cell
deriving DecidableEq, Repr

/-- Canonical column identities used by `_normalize_dataframe`. -/
inductive FieldId where
  | cusip | issuer | classTitle | value | ssh | sshType
  | putCall | discretion | managers | votSole | votShared | votNone
deriving DecidableEq, Repr

/-- `utils.safe_float` applied to an extracted text (an empty or unparsable
text falls back to the default). -/
def safeFloatQ (s : String) (dflt : ℚ) : ℚ :=
  if s = "" then dflt else (pyFloatParse s.data).getD dflt

/-- `utils.safe_int` applied to an extracted text.  The default is an
arbitrary Python value (the source passes the strings "sole",
"shared", "none" in one call site), hence a `Cell`. -/
def safeIntCell (s : String) (dflt : Cell) : Cell :=
  if s = "" then dflt
  else
    match pyFloatParse s.data with
    | some q => .cint (ratTrunc q)
    | none => dflt

/-- `pd.to_numeric(errors="coerce")` on one cell. -/
def toNumeric : Cell → Cell
  | .na => .na
  | .cstr s => match pyFloatParse s.data with
    | some q => .crat q
    | none => .na
  | .cint n => .cint n
  | .crat q => .crat q

/-- `fillna` on one cell. -/
def fillNa (c : Cell) (dflt : Cell) : Cell :=
  match c with
  | .na => dflt
  | c => c

/-- `astype(int)` on one (numeric) cell. -/
def astypeIntCell : Cell → Cell
  | .cint n => .cint n
  | .crat q => .cint (ratTrunc q)
  | .cstr _ => .cint 0
  | .na => .cint 0

/-- `astype(str)` on one cell (float rendering is approximated; no flow
exercised by the claims reaches it with a non-string cell). -/
def cellAsStr : Cell → String
  | .na => "nan"
  | .cstr s => s
  | .cint n => ⟨intRender n⟩
  | .crat q => ⟨intRender (ratTrunc q)⟩

/-! ## `src/parser.py` — XML model

`xml.etree.ElementTree` elements: a tag (namespace-qualified tags carry
the ElementTree `{uri}local` spelling), an optional text, and a child
list.  The child list is a mutually inductive type so that the descendant
search is structurally recursive (and kernel-reducible). -/

mutual
inductive Xml where
  | elem (tag : String) (text : Option String) (children : XmlL)
inductive XmlL where
  | nil
  | cons (hd : Xml) (tl : XmlL)
end

/-- Tag of an element. -/
def Xml.tagOf : Xml → String
  | .elem t _ _ => t

/-- Text of an element (`Element.text`). -/
def Xml.textOf : Xml → Option String
  | .elem _ x _ => x

/-- Children of an element. -/
def Xml.childrenOf : Xml → XmlL
  | .elem _ _ c => c

/-- Descendant search in document order over a child list: each child is
listed (if its tag matches) before its own descendants. -/
def xmlFindSub (tag : String) : XmlL → List Xml
  | .nil => []
  | .cons (.elem t x cs) tl =>
    (if t = tag then [Xml.elem t x cs] else []) ++ xmlFindSub tag cs ++ xmlFindSub tag tl

/-- `element.findall(".//" ++ tag)`: all descendants with the tag. -/
def xmlFindAll (tag : String) (e : Xml) : List Xml := xmlFindSub tag e.childrenOf

/-- `element.find(".//" ++ tag)`: first descendant with the tag. -/
def xmlFind (tag : String) (e : Xml) : Option Xml := (xmlFindAll tag e).head?

/-- The 13F information-table namespace URI. -/
def nsUri : String := "http://www.sec.gov/edgar/document/thirteenf/informationtable"

/-- ElementTree qualified name `{uri}tag`. -/
def qn (tag : String) : String := "\x7b" ++ nsUri ++ "\x7d" ++ tag

/-- `_extract_holding_from_xml.get_text`: text of the first descendant
with the namespaced tag, stripped; the default when the element or its
text is missing. -/
def getTextNs (el : Xml) (tag : String) (dflt : String) : String :=
  match xmlFind (qn tag) el with
  | none => dflt
  | some f =>
    match f.textOf with
    | none => dflt
    | some s => ⟨pyStrip s.data⟩

/-- `_extract_holding_from_xml.get_int` (note: the third argument of the
source helper is the *default*, not a sub-tag). -/
def getIntNs (el : Xml) (tag : String) (dflt : Cell) : Cell :=
  safeIntCell (getTextNs el tag "") dflt

/-- `_extract_holding_from_xml.get_float`. -/
def getFloatNs (el : Xml) (tag : String) (dflt : ℚ) : ℚ :=
  safeFloatQ (getTextNs el tag "") dflt

/-- `ThirteenFParser._extract_holding_from_xml`: build the holding dict
from one `infoTable` element; `none` when the required `cusip` or
`nameOfIssuer` is missing/empty.  The three voting-authority fields call
`get_int(info_table, "votingAuthority", default)` with the strings
`"sole"`, `"shared"`, `"none"` in the default position, exactly as the
source does. -/
def extract_holding_from_xml (el : Xml) : Option Row :=
  let cusip := getTextNs el "cusip" ""
  let issuer := getTextNs el "nameOfIssuer" ""
  let h : Row :=
    { cusip := .cstr cusip
      issuer_name := .cstr issuer
      class_title := .cstr (getTextNs el "titleOfClass" "")
      value_usd := .crat (getFloatNs el "value" 0)
      ssh_prnamt := getIntNs el "shrsOrPrnAmt" (.cint 0)
      ssh_prnamt_type := .cstr (getTextNs el "shrsOrPrnAmt" "")
      put_call := .cstr (getTextNs el "putCall" "")
      investment_discretion := .cstr (getTextNs el "investmentDiscretion" "")
      other_managers := .cstr (getTextNs el "otherManager" "")
      voting_authority_sole := getIntNs el "votingAuthority" (.cstr "sole")
      voting_authority_shared := getIntNs el "votingAuthority" (.cstr "shared")
      voting_authority_none := getIntNs el "votingAuthority" (.cstr "none") }
  if cusip = "" ∨ issuer = "" then none else some h

/-! ## `src/parser.py` — text/HTML path and normalization -/

/-- A BeautifulSoup `<table>`: rows of cells, each cell either `th` or
`td` with its (already extracted) text. -/
structure HtmlCell where
  isTh : Bool
  txt : String

/-- Rows of an HTML table (`find_all("tr")` in order). -/
structure HtmlTable where
  rows : List (List HtmlCell)

/-- Library-call oracles: the results of `ET.fromstring` (`none` models
`ParseError`) and of `BeautifulSoup(content).find("table")` on a given
content. -/
structure ParserEnv where
  fromstring : PyStr → Option Xml
  soupFindTable : PyStr → Option HtmlTable

/-- The column mapping of `_normalize_dataframe`: map a free-form column
name to a canonical field by the substring-priority chain of the source. -/
def mapColumn (col : String) : Option FieldId :=
  let l := pyLower col.data
  if strContains l "cusip".data then some .cusip
  else if strContains l "issuer".data ∨ strContains l "name".data ∨
      strContains l "company".data then some .issuer
  else if strContains l "class".data ∨ strContains l "title".data ∨
      strContains l "security".data then some .classTitle
  else if strContains l "value".data then some .value
  else if strContains l "shares".data ∨ strContains l "amount".data ∨
      strContains l "quantity".data then some .ssh
  else if strContains l "type".data then some .sshType
  else if strContains l "put".data ∨ strContains l "call".data then some .putCall
  else if strContains l "discretion".data then some .discretion
  else if strContains l "manager".data then some .managers
  else if strContains l "voting".data ∧ strContains l "sole".data then some .votSole
  else if strContains l "voting".data ∧ strContains l "shared".data then some .votShared
  else if strContains l "voting".data ∧ strContains l "none".data then some .votNone
  else none

/-- Columns of `pd.DataFrame(list_of_dicts)`: the union of the keys of the
dicts in order of first appearance. -/
def dfColumnsOf (dicts : List (PyDict Cell)) : List String :=
  dicts.foldl (fun cols d => cols ++ ((d.map Prod.fst).filter (fun k => !(cols.contains k)))) []

/-- The `column_mapping` dict of `_normalize_dataframe` in column order. -/
def columnAssignments (cols : List String) : List (String × FieldId) :=
  cols.filterMap (fun c => (mapColumn c).map (fun f => (c, f)))

/-- Value of a canonical field for one row dict: the last source column
assigned to that field wins (`normalized_df[new_col] = df[old_col]` in
mapping order), missing entries are NaN. -/
def getField (assigns : List (String × FieldId)) (d : PyDict Cell) (f : FieldId) : Cell :=
  match ((assigns.filter (fun p => p.2 = f)).map Prod.fst).getLast? with
  | none => .na
  | some c => (pyDictGet d c).getD .na

/-- The steps of `_clean_dataframe` before deduplication: drop rows with
missing required fields, clean `cusip`/`issuer_name`, coerce numeric
fields with defaults, coerce voting-authority fields to integers. -/
def cleanPass (rows : List Row) : List Row :=
  let kept := rows.filter (fun r => r.cusip != Cell.na && r.issuer_name != Cell.na)
  kept.map (fun r =>
    { r with
      cusip := Cell.cstr ⟨(cellAsStr r.cusip).data.filter Char.isAlphanum⟩
      issuer_name := Cell.cstr ⟨pyStrip (cellAsStr r.issuer_name).data⟩
      value_usd := fillNa (toNumeric r.value_usd) (Cell.crat 0)
      ssh_prnamt := fillNa (toNumeric r.ssh_prnamt) (Cell.cint 0)
      voting_authority_sole := astypeIntCell (fillNa (toNumeric r.voting_authority_sole) (Cell.cint 0))
      voting_authority_shared := astypeIntCell (fillNa (toNumeric r.voting_authority_shared) (Cell.cint 0))
      voting_authority_none := astypeIntCell (fillNa (toNumeric r.voting_authority_none) (Cell.cint 0)) })

/-- `ThirteenFParser._clean_dataframe`: the cleaning pass above, then
`drop_duplicates(subset=["cusip"], keep="first")`. -/
def clean_dataframe (rows : List Row) : List Row :=
  pyDedupF (fun r => r.cusip) [] (cleanPass rows)

/-- `ThirteenFParser._normalize_dataframe`: map raw dict rows onto the
expected columns and clean.  The fill loop of the source is a no-op
because the normalized frame is initialized with every expected column. -/
def normalize_dataframe (dicts : List (PyDict Cell)) : List Row :=
  let assigns := columnAssignments (dfColumnsOf dicts)
  clean_dataframe (dicts.map (fun d =>
    { cusip := getField assigns d .cusip
      issuer_name := getField assigns d .issuer
      class_title := getField assigns d .classTitle
      value_usd := getField assigns d .value
      ssh_prnamt := getField assigns d .ssh
      ssh_prnamt_type := getField assigns d .sshType
      put_call := getField assigns d .putCall
      investment_discretion := getField assigns d .discretion
      other_managers := getField assigns d .managers
      voting_authority_sole := getField assigns d .votSole
      voting_authority_shared := getField assigns d .votShared
      voting_authority_none := getField assigns d .votNone }))

/-- `dict(zip(headers, row_data))`: later duplicate keys overwrite. -/
def dictOfZip (ks : List String) (vs : List String) : PyDict Cell :=
  (ks.zip vs).foldl (fun d kv => pyDictSet d kv.1 (.cstr kv.2)) []

/-- `ThirteenFParser._parse_html_table`. -/
def parse_html_table (t : HtmlTable) : List Row :=
  let headers := match t.rows with
    | [] => []
    | hr :: _ => hr.map (fun c => (⟨pyLower (pyStrip c.txt.data)⟩ : String))
  let dataRows := (t.rows.drop 1).map (fun tr =>
    (tr.filter (fun c => !c.isTh)).map (fun c => (⟨pyStrip c.txt.data⟩ : String)))
  let dicts := dataRows.filterMap (fun rd =>
    if headers.length ≤ rd.length then some (dictOfZip headers rd) else none)
  if dicts.isEmpty then [] else normalize_dataframe dicts

/-- `_is_valid_holding`: the required fields are present and truthy. -/
def is_valid_holding (d : PyDict Cell) : Bool :=
  ["cusip", "issuer_name"].all (fun f =>
    match pyDictGet d f with
    | some v => cellTruthy v
    | none => false)

/-- The line loop of `_parse_structured_text`: accumulate key/value pairs
into the current holding dict, flushing (when valid) whenever a new
`cusip`-like key arrives while one is already recorded. -/
def pstGo (lines : List PyStr) (cur : PyDict Cell) (acc : List (PyDict Cell)) :
    List (PyDict Cell) :=
  match lines with
  | [] => if cur ≠ [] ∧ is_valid_holding cur then acc ++ [cur] else acc
  | line :: rest =>
    let l := pyStrip line
    if l.isEmpty then pstGo rest cur acc
    else
      match pySplitOnce l ':' with
      | none => pstGo rest cur acc
      | some (k0, v0) =>
        let key := pyLower (pyStrip k0)
        let value : String := ⟨pyStrip v0⟩
        if strContains key "cusip".data then
          if cur ≠ [] ∧ pyDictHas cur "cusip" then
            let acc2 := if is_valid_holding cur then acc ++ [cur] else acc
            pstGo rest (pyDictSet [] "cusip" (.cstr value)) acc2
          else pstGo rest (pyDictSet cur "cusip" (.cstr value)) acc
        else if strContains key "issuer".data ∨ strContains key "name".data then
          pstGo rest (pyDictSet cur "issuer_name" (.cstr value)) acc
        else if strContains key "class".data ∨ strContains key "title".data then
          pstGo rest (pyDictSet cur "class_title" (.cstr value)) acc
        else if strContains key "value".data then
          pstGo rest (pyDictSet cur "value_usd" (.crat (safeFloatQ value 0))) acc
        else if strContains key "shares".data ∨ strContains key "amount".data then
          pstGo rest (pyDictSet cur "ssh_prnamt" (safeIntCell value (.cint 0))) acc
        else if strContains key "put".data ∨ strContains key "call".data then
          pstGo rest (pyDictSet cur "put_call" (.cstr value)) acc
        else if strContains key "discretion".data then
          pstGo rest (pyDictSet cur "investment_discretion" (.cstr value)) acc
        else if strContains key "voting".data then
          let vl := pyLower value.data
          if strContains vl "sole".data then
            pstGo rest (pyDictSet cur "voting_authority_sole" (.cint 1)) acc
          else if strContains vl "shared".data then
            pstGo rest (pyDictSet cur "voting_authority_shared" (.cint 1)) acc
          else if strContains vl "none".data then
            pstGo rest (pyDictSet cur "voting_authority_none" (.cint 1)) acc
          else pstGo rest cur acc
        else pstGo rest cur acc

/-- `ThirteenFParser._parse_structured_text`. -/
def parse_structured_text (content : PyStr) : List Row :=
  let dicts := pstGo (pySplit content '\n') [] []
  if dicts.isEmpty then [] else normalize_dataframe dicts

/-- `ThirteenFParser._parse_txt`: HTML table when BeautifulSoup finds
one, the line-oriented extractor otherwise. -/
def parse_txt (env : ParserEnv) (content : PyStr) : List Row :=
  match env.soupFindTable content with
  | some t => parse_html_table t
  | none => parse_structured_text content

/-- `ThirteenFParser._parse_xml`: parse as XML, locate the row elements
(namespaced tag first, bare tag as fallback), extract each holding; a
`ParseError` from `fromstring` falls back to `_parse_txt` on the same
content; no holdings yields an empty table. -/
def parse_xml (env : ParserEnv) (content : PyStr) : List Row :=
  match env.fromstring content with
  | none => parse_txt env content
  | some root =>
    let its := xmlFindAll (qn "infoTable") root
    let its := if its.isEmpty then xmlFindAll "infoTable" root else its
    its.filterMap extract_holding_from_xml

/-- Pattern 3 of `_extract_information_table_section`
(`<ns1:infoTable>` tags), falling back to the whole content. -/
def extractPattern3 (content : PyStr) : PyStr :=
  let st := "<ns1:infoTable".data
  let en := "</ns1:infoTable>".data
  match strFind content st with
  | none => content
  | some s =>
    match strFindFrom content en s with
    | none => content
    | some e => pySlice content s (e + en.length)

/-- Pattern 2 of `_extract_information_table_section`
(non-namespaced `<informationTable>` tags). -/
def extractPattern2 (content : PyStr) : PyStr :=
  let st := "<informationTable".data
  let en := "</informationTable>".data
  match strFind content st with
  | none => extractPattern3 content
  | some s =>
    match strFindFrom content en s with
    | none => extractPattern3 content
    | some e => pySlice content s (e + en.length)

/-- `ThirteenFParser._extract_information_table_section`: slice out the
information-table span, trying the three tag variants in priority order;
when none matches, the entire raw document is returned (the except-branch
of the source also returns the content unchanged). -/
def extract_information_table_section (content : PyStr) : PyStr :=
  let st := "<ns1:informationTable".data
  let en := "</ns1:informationTable>".data
  match strFind content st with
  | none => extractPattern2 content
  | some s =>
    match strRfind content en with
    | none => extractPattern2 content
    | some e => pySlice content s (e + en.length)

/-- File types of `_detect_file_type`. -/
inductive FType where
  | xml
  | txt
deriving DecidableEq, Repr

/-- `ThirteenFParser._detect_file_type` on the first 100 characters of
the stripped content. -/
def detect_file_type (content : PyStr) : FType :=
  let cs := pyLower (pySlice (pyStrip content) 0 100)
  if pyStartsWith cs "<?xml".data ∨ strContains cs "<informationtable".data then .xml
  else if strContains cs "nameofissuer".data ∨ strContains cs "cusip".data then .txt
  else .xml

/-- `ThirteenFParser.parse_information_table` with the default
`file_type="auto"` (the only call mode used by the pipeline): extract the
information-table section, detect the format, dispatch. -/
def parse_information_table (env : ParserEnv) (content : PyStr) : List Row :=
  let extracted := extract_information_table_section content
  match detect_file_type extracted with
  | .xml => parse_xml env extracted
  | .txt => parse_txt env extracted

/-- `ThirteenFParser.get_holdings_count`: `0` on an empty table,
otherwise `df["cusip"].nunique()` (the number of distinct non-null CUSIP
values). -/
def get_holdings_count (df : List Row) : Nat :=
  if df.isEmpty then 0
  else (pyDedupF id [] (df.filterMap (fun r =>
    if r.cusip = Cell.na then none else some r.cusip))).length

/-! ## `src/13f_scraper/logic.py` -/

/-- Leap-year rule used by the calendar validation of `datetime`. -/
def isLeap (y : Nat) : Bool :=
  (y % 4 = 0 && y % 100 ≠ 0) || y % 400 = 0

/-- Days in a month (for `datetime.strptime` date validation). -/
def daysInMonth (y m : Nat) : Nat :=
  if m = 2 then (if isLeap y then 29 else 28)
  else if m = 4 ∨ m = 6 ∨ m = 9 ∨ m = 11 then 30
  else 31

/-- `datetime.strptime(s, "%Y-%m-%d")`: a four-digit year, a one- or
two-digit month `1..12`, a one- or two-digit day valid for that month,
nothing else; `none` models the raised `ValueError`. -/
def parseDate (s : PyStr) : Option (Nat × Nat × Nat) :=
  match pySplit s '-' with
  | [ys, ms, ds] =>
    if ys.length = 4 ∧ ys.all Char.isDigit ∧
        ms ≠ [] ∧ ms.length ≤ 2 ∧ ms.all Char.isDigit ∧
        ds ≠ [] ∧ ds.length ≤ 2 ∧ ds.all Char.isDigit then
      let y := digitsVal ys
      let m := digitsVal ms
      let d := digitsVal ds
      if 1 ≤ y ∧ 1 ≤ m ∧ m ≤ 12 ∧ 1 ≤ d ∧ d ≤ daysInMonth y m then some (y, m, d)
      else none
    else none
  | _ => none

/-- Chronological (lexicographic) comparison of parsed dates. -/
def dateLt (a b : Nat × Nat × Nat) : Bool :=
  a.1 < b.1 ∨ (a.1 = b.1 ∧ (a.2.1 < b.2.1 ∨ (a.2.1 = b.2.1 ∧ a.2.2 < b.2.2)))

/-- The fiscal-quarter mapping of `logic.py` (months 1-3 belong to Q4 of
the preceding year, 4-6 to Q1, 7-9 to Q2, 10-12 to Q3). -/
def fiscalOf (year month : Nat) : Int × Int :=
  if month ≤ 3 then ((year : Int) - 1, 4)
  else if month ≤ 6 then ((year : Int), 1)
  else if month ≤ 9 then ((year : Int), 2)
  else ((year : Int), 3)

/-- Strict order on (fiscal year, fiscal quarter) pairs, as compared by
`_check_first_time_filer`. -/
def fiscalLt (a b : Int × Int) : Bool :=
  a.1 < b.1 ∨ (a.1 = b.1 ∧ a.2 < b.2)

/-- The `recent` block of a submissions payload: the parallel arrays of
the SEC API (each may have any length, including zero). -/
structure RecentFilings where
  form : List String
  filingDate : List String
  accessionNumber : List String
  primaryDocument : List String
deriving DecidableEq, Repr

/-- A submissions payload.  `none` models a payload with no `filings` key
or an empty `recent` block (both short-circuit in the source). -/
abbrev Submissions := Option RecentFilings

/-- A reconstructed filing object as built by `_find_target_filings`. -/
structure Filing where
  form : String
  filingDate : String
  accessionNumber : String
  primaryDocument : String
  filingHREF : String
  infoTableHREF : String
deriving DecidableEq, Repr

/-- `accession_number.replace("-", "")`. -/
def stripHyphens (s : String) : String := ⟨s.data.filter (fun c => c ≠ '-')⟩

/-- The filing object literal of `_find_target_filings`. -/
def mkFilingObj (form date acc pdoc cik : String) : Filing :=
  let fa := stripHyphens acc
  { form := form
    filingDate := date
    accessionNumber := acc
    primaryDocument := pdoc
    filingHREF := "https://www.sec.gov/Archives/edgar/data/" ++ cik ++ "/" ++ fa ++ "/" ++ acc ++ ".txt"
    infoTableHREF := "https://www.sec.gov/Archives/edgar/data/" ++ cik ++ "/" ++ fa ++ "/informationtable.xml" }

/-- The per-record body of the `_find_target_filings` loop: form-type
filter, date parse (unparsable dates are skipped), fiscal-quarter match
against the target. -/
def targetRecord (tY tQ : Int) (cik form date acc pdoc : String) : Option Filing :=
  if form ≠ "13F-HR" ∧ form ≠ "13F-HR/A" then none
  else
    match parseDate date.data with
    | none => none
    | some (y, m, _) =>
      let fq := fiscalOf y m
      if fq.1 = tY ∧ fq.2 = tQ then some (mkFilingObj form date acc pdoc cik) else none

/-- `ThirteenFProcessor._find_target_filings`: iterate `i` over the
`form` array; an index lacking a filing date or accession number is
skipped; a missing primary document defaults to `""`. -/
def find_target_filings (subs : Submissions) (tY tQ : Int) (cik : String) : List Filing :=
  match subs with
  | none => []
  | some r =>
    (List.range r.form.length).filterMap (fun i =>
      if i < r.filingDate.length ∧ i < r.accessionNumber.length then
        targetRecord tY tQ cik (r.form.getD i "") (r.filingDate.getD i "")
          (r.accessionNumber.getD i "")
          (if i < r.primaryDocument.length then r.primaryDocument.getD i "" else "")
      else none)

/-- Stable descending insertion by filing date (the element being
inserted is original-order-earlier than the already sorted ones, so it
goes before every element whose date is `<=` its own). -/
def insertDescByDate (f : Filing) : List Filing → List Filing
  | [] => [f]
  | g :: gs =>
    if pyStrLe g.filingDate.data f.filingDate.data then f :: g :: gs
    else g :: insertDescByDate f gs

/-- Python `sorted(key=filingDate, reverse=True)`: the unique stable
descending sort. -/
def sortDescByDate : List Filing → List Filing
  | [] => []
  | f :: fs => insertDescByDate f (sortDescByDate fs)

/-- `ThirteenFProcessor._get_latest_filing`: head of the list sorted by
filing date, newest first; `none` on an empty list. -/
def get_latest_filing (filings : List Filing) : Option Filing :=
  match sortDescByDate filings with
  | [] => none
  | f :: _ => some f

/-- One step of the `_check_first_time_filer` scan: the accumulator holds
the earliest qualifying prior filing date seen so far together with its
formatted fiscal quarter. -/
def cftfStep (tY tQ : Int) (acc : Option ((Nat × Nat × Nat) × String))
    (fd : String × String) : Option ((Nat × Nat × Nat) × String) :=
  if fd.1 = "13F-HR" ∨ fd.1 = "13F-HR/A" then
    match parseDate fd.2.data with
    | none => acc
    | some ymd =>
      let fq := fiscalOf ymd.1 ymd.2.1
      if fiscalLt fq (tY, tQ) then
        match acc with
        | none => some (ymd, format_quarter fq.1 fq.2)
        | some best =>
          if dateLt ymd best.1 then some (ymd, format_quarter fq.1 fq.2) else acc
      else acc
  else acc

/-- `ThirteenFProcessor._check_first_time_filer`: scan the entire history
for `13F-HR`/`13F-HR/A` records strictly before the target fiscal
quarter; `(true, none)` when none exist (also on a missing/empty
payload), otherwise `(false, quarter of the earliest such record)`. -/
def check_first_time_filer (subs : Submissions) (tY tQ : Int) : Bool × Option String :=
  match subs with
  | none => (true, none)
  | some r =>
    let final := (r.form.zip r.filingDate).foldl (cftfStep tY tQ) none
    (final.isNone, final.map Prod.snd)

/-- `ThirteenFProcessor._passes_holdings_filters`: the `between` range
(any pair is truthy in Python) overrides `min`/`max`; then the two bound
checks in sequence. -/
def passes_holdings_filters (num : Int) (minH maxH : Option Int)
    (between : Option (Int × Int)) : Bool :=
  let minH := match between with
    | some p => some p.1
    | none => minH
  let maxH := match between with
    | some p => some p.2
    | none => maxH
  let minFail : Bool := match minH with
    | some m => decide (num < m)
    | none => false
  let maxFail : Bool := match maxH with
    | some m => decide (num > m)
    | none => false
  if minFail then false
  else if maxFail then false
  else true

/-! ## `src/sec_client.py` -/

/-- An HTTP response for the submissions endpoint: a status code and the
parsed JSON body (`none` models the empty dict `{}` / a body without a
usable `filings` block). -/
structure HttpResponse where
  status : Nat
  json : Submissions
deriving DecidableEq, Repr

/-- An exception raised by one request attempt: a transport-level
`requests.RequestException` or an HTTP error status raised by
`raise_for_status` (both retryable under the tenacity policy). -/
inductive ReqError where
  | transport
  | httpStatus (code : Nat)
deriving DecidableEq, Repr

/-- The exception escaping `_make_request` after the retry policy gives
up: the tenacity `RetryError` wrapping the exception of the last attempt. -/
inductive FetchError where
  | retryError (last : ReqError)
deriving DecidableEq, Repr

/-- One attempt of the body of `_make_request`: the transport oracle
gives the outcome of attempt `i` (`.error` is a `RequestException`), then
`raise_for_status` turns a `4xx`/`5xx` status into an `HTTPError` (the
429 branch sleeps and re-raises, which is the same exception flow). -/
def attemptOnce (oracle : Nat → Except Unit HttpResponse) (i : Nat) :
    Except ReqError HttpResponse :=
  match oracle i with
  | .error _ => .error .transport
  | .ok resp =>
    if 400 ≤ resp.status ∧ resp.status < 600 then .error (.httpStatus resp.status)
    else .ok resp

/-- `SECClient._make_request` under
`@retry(stop=stop_after_attempt(3), retry=retry_if_exception_type((RequestException, HTTPError)))`:
up to three attempts, stopping at the first success; after the third
failure the last exception is surfaced wrapped in a `RetryError`. -/
def make_request (oracle : Nat → Except Unit HttpResponse) :
    Except FetchError HttpResponse :=
  match attemptOnce oracle 0 with
  | .ok r => .ok r
  | .error _ =>
    match attemptOnce oracle 1 with
    | .ok r => .ok r
    | .error _ =>
      match attemptOnce oracle 2 with
      | .ok r => .ok r
      | .error e => .error (.retryError e)

/-- `SECClient.get_company_submissions`: returns `response.json()` on
success; its `except Exception` handler catches the error escaping
`_make_request` and returns the empty dict `{}` (modelled as `none`). -/
def get_company_submissions (oracle : Nat → Except Unit HttpResponse) : Submissions :=
  match make_request oracle with
  | .ok r => r.json
  | .error _ => none

/-! ## Spec-side reference definitions (for the refinement claims) -/

/-- Target-filing reconstruction exactly as claim C2 words it: records
are rebuilt index-by-index "discarding any index beyond the shortest
array" — the shortest of all four parallel arrays, the primary-document
array included. -/
def findTargetFilingsClaimSpec (r : RecentFilings) (tY tQ : Int) (cik : String) :
    List Filing :=
  let n := min (min r.form.length r.filingDate.length)
    (min r.accessionNumber.length r.primaryDocument.length)
  (List.range n).filterMap (fun i =>
    targetRecord tY tQ cik (r.form.getD i "") (r.filingDate.getD i "")
      (r.accessionNumber.getD i "") (r.primaryDocument.getD i ""))

/-- Target-filing reconstruction as amended: indices beyond the shortest
of the form/filing-date/accession arrays are discarded; a missing
primary-document entry defaults to the empty string. -/
def findTargetFilingsAmendedSpec (r : RecentFilings) (tY tQ : Int) (cik : String) :
    List Filing :=
  let n := min r.form.length (min r.filingDate.length r.accessionNumber.length)
  (List.range n).filterMap (fun i =>
    targetRecord tY tQ cik (r.form.getD i "") (r.filingDate.getD i "")
      (r.accessionNumber.getD i "")
      (if i < r.primaryDocument.length then r.primaryDocument.getD i "" else ""))

/-! ## Statement vocabulary for the first-time-filer scan -/

/-- The qualifying-prior test of one (form, filing date) record: a
`13F-HR`/`13F-HR/A` record with a parsable date whose fiscal quarter is
strictly earlier than the target. -/
def priorOf (tY tQ : Int) (fd : String × String) : Option (Nat × Nat × Nat) :=
  if fd.1 = "13F-HR" ∨ fd.1 = "13F-HR/A" then
    match parseDate fd.2.data with
    | some ymd => if fiscalLt (fiscalOf ymd.1 ymd.2.1) (tY, tQ) then some ymd else none
    | none => none
  else none

/-- The dates of all qualifying prior records of a submissions payload. -/
def qualifyingPriorDates (r : RecentFilings) (tY tQ : Int) : List (Nat × Nat × Nat) :=
  (r.form.zip r.filingDate).filterMap (priorOf tY tQ)

/-- Fiscal-quarter string of a parsed date. -/
def fmtFiscal (d : Nat × Nat × Nat) : String :=
  format_quarter (fiscalOf d.1 d.2.1).1 (fiscalOf d.1 d.2.1).2

/-- The earliest-so-far update of the first-time-filer scan. -/
def updMin (acc : Option ((Nat × Nat × Nat) × String)) (ymd : Nat × Nat × Nat) :
    Option ((Nat × Nat × Nat) × String) :=
  match acc with
  | none => some (ymd, fmtFiscal ymd)
  | some best => if dateLt ymd best.1 then some (ymd, fmtFiscal ymd) else acc

/-! ## Concrete inputs used by the counterexamples and witnesses -/

/-- A raw 13F filing document consisting of a namespaced information
table whose two rows carry the same CUSIP (e.g. a position split across
two rows). -/
def c1Doc : String :=
  "<ns1:informationTable xmlns:ns1=\"http://www.sec.gov/edgar/document/thirteenf/informationtable\"><ns1:infoTable><ns1:nameOfIssuer>APPLE INC</ns1:nameOfIssuer><ns1:cusip>037833100</ns1:cusip><ns1:value>100</ns1:value></ns1:infoTable><ns1:infoTable><ns1:nameOfIssuer>APPLE INC</ns1:nameOfIssuer><ns1:cusip>037833100</ns1:cusip><ns1:value>200</ns1:value></ns1:infoTable></ns1:informationTable>"

/-- One `infoTable` row element of `c1Doc` (ElementTree qualifies every
tag of the namespaced document with the namespace URI). -/
def c1Info (v : String) : Xml :=
  .elem (qn "infoTable") none (
    .cons (.elem (qn "nameOfIssuer") (some "APPLE INC") .nil) (
    .cons (.elem (qn "cusip") (some "037833100") .nil) (
    .cons (.elem (qn "value") (some v) .nil) .nil)))

/-- The ElementTree parse of `c1Doc`. -/
def c1Tree : Xml :=
  .elem (qn "informationTable") none (.cons (c1Info "100") (.cons (c1Info "200") .nil))

/-- Parser oracles for `c1Doc`: `ET.fromstring` succeeds on exactly the
extracted section (which for `c1Doc` is the whole document) with the tree
above; no HTML table is found anywhere. -/
def c1Env : ParserEnv :=
  { fromstring := fun s => if s = c1Doc.data then some c1Tree else none
    soupFindTable := fun _ => none }

/-- An `infoTable` row element with the voting-authority counts nested
one level below the `votingAuthority` parent, as in the EDGAR schema. -/
def c4Info : Xml :=
  .elem (qn "infoTable") none (
    .cons (.elem (qn "nameOfIssuer") (some "APPLE INC") .nil) (
    .cons (.elem (qn "cusip") (some "037833100") .nil) (
    .cons (.elem (qn "value") (some "1000") .nil) (
    .cons (.elem (qn "shrsOrPrnAmt") none (
        .cons (.elem (qn "sshPrnamt") (some "500") .nil) (
        .cons (.elem (qn "sshPrnamtType") (some "SH") .nil) .nil))) (
    .cons (.elem (qn "votingAuthority") none (
        .cons (.elem (qn "Sole") (some "500") .nil) (
        .cons (.elem (qn "Shared") (some "0") .nil) (
        .cons (.elem (qn "None") (some "0") .nil) .nil)))) .nil)))))

/-- Parser oracles for content no library call can interpret. -/
def env0 : ParserEnv :=
  { fromstring := fun _ => none
    soupFindTable := fun _ => none }

/-- A row used by the cleaning witnesses (all cells already canonical). -/
def demoRow (cu issuer : String) : Row :=
  { cusip := .cstr cu
    issuer_name := .cstr issuer
    class_title := .cstr ""
    value_usd := .cint 0
    ssh_prnamt := .cint 0
    ssh_prnamt_type := .cstr ""
    put_call := .cstr ""
    investment_discretion := .cstr ""
    other_managers := .cstr ""
    voting_authority_sole := .cint 0
    voting_authority_shared := .cint 0
    voting_authority_none := .cint 0 }

/-- A raw table with a repeated CUSIP and a second distinct CUSIP. -/
def demoRows : List Row := [demoRow "AAA" "X", demoRow "AAA" "Y", demoRow "BBB" "Z"]

/-- A submissions `recent` block whose `primaryDocument` array is shorter
than the other three parallel arrays. -/
def rC2 : RecentFilings :=
  { form := ["13F-HR"]
    filingDate := ["2024-05-01"]
    accessionNumber := ["0001-23-456"]
    primaryDocument := [] }

/-- Two qualifying filings in the same fiscal quarter (the latest-filing example
of spec section 8). -/
def fDemo1 : Filing := mkFilingObj "13F-HR" "2024-11-01" "acc1" "d1" "123"

/-- The later of the two demo filings. -/
def fDemo2 : Filing := mkFilingObj "13F-HR" "2024-11-15" "acc2" "d2" "123"

/-- A submissions `recent` block with one prior filing in fiscal 2023Q2. -/
def rC3 : RecentFilings :=
  { form := ["13F-HR"]
    filingDate := ["2023-08-15"]
    accessionNumber := []
    primaryDocument := [] }

/-- A transport oracle on which every attempt raises. -/
def failOracle : Nat → Except Unit HttpResponse := fun _ => .error ()

/-- A transport oracle returning a successful but empty response. -/
def emptyOkOracle : Nat → Except Unit HttpResponse :=
  fun _ => .ok { status := 200, json := none }

/-! ## Helper lemmas -/

theorem pyStrLt_asymm : ∀ a b : PyStr, pyStrLt a b = true → pyStrLt b a = false := by
  intro a
  induction a with
  | nil => intro b h; cases b <;> simp [pyStrLt] at h ⊢
  | cons x xs ih =>
    intro b h
    cases b with
    | nil => simp [pyStrLt] at h
    | cons y ys =>
      simp only [pyStrLt] at h ⊢
      by_cases h1 : x.toNat < y.toNat
      · simp only [if_pos h1]
        have h2 : ¬ y.toNat < x.toNat := by omega
        simp [h2, h1]
      · simp only [if_neg h1] at h
        by_cases h2 : y.toNat < x.toNat
        · simp [h2] at h
        · simp only [if_neg h2] at h
          have h3 : ¬ y.toNat < x.toNat := h2
          simp [h1, h2, ih ys h]

theorem pyStrLt_irrefl : ∀ a : PyStr, pyStrLt a a = false := by
  intro a
  cases h : pyStrLt a a
  · rfl
  · have h2 := pyStrLt_asymm a a h
    rw [h] at h2
    exact h2

theorem pyStrLt_resolve : ∀ c a b : PyStr, pyStrLt c a = true →
    pyStrLt c b = true ∨ pyStrLt b a = true := by
  intro c
  induction c with
  | nil =>
    intro a b h
    cases a with
    | nil => simp [pyStrLt] at h
    | cons y ys =>
      cases b with
      | nil => right; rfl
      | cons z zs => left; rfl
  | cons x xs ih =>
    intro a b h
    cases a with
    | nil => simp [pyStrLt] at h
    | cons y ys =>
      cases b with
      | nil => right; rfl
      | cons z zs =>
        simp only [pyStrLt] at h ⊢
        by_cases hxy : x.toNat < y.toNat
        · by_cases hxz : x.toNat < z.toNat
          · left; simp [hxz]
          · right
            have hzy : z.toNat < y.toNat := by omega
            simp [hzy]
        · simp only [if_neg hxy] at h
          by_cases hyx : y.toNat < x.toNat
          · simp [hyx] at h
          · simp only [if_neg hyx] at h
            by_cases hxz : x.toNat < z.toNat
            · left; simp [hxz]
            · by_cases hzx : z.toNat < x.toNat
              · right
                have hzy : z.toNat < y.toNat := by omega
                simp [hzy]
              · have := ih ys zs h
                rcases this with h1 | h1
                · left; simp [hxz, hzx, h1]
                · right
                  have hzy : ¬ z.toNat < y.toNat := by omega
                  have hyz : ¬ y.toNat < z.toNat := by omega
                  simp [hzy, hyz, h1]

theorem pyStrLe_refl (a : PyStr) : pyStrLe a a = true := by
  simp [pyStrLe, pyStrLt_irrefl]

theorem pyStrLe_trans {a b c : PyStr} (h1 : pyStrLe a b = true) (h2 : pyStrLe b c = true) :
    pyStrLe a c = true := by
  simp only [pyStrLe, Bool.not_eq_true'] at h1 h2 ⊢
  by_contra hc
  have hca : pyStrLt c a = true := by
    cases h : pyStrLt c a
    · exact absurd h hc
    · rfl
  rcases pyStrLt_resolve c a b hca with h3 | h3
  · rw [h3] at h2; cases h2
  · rw [h3] at h1; cases h1

theorem pyStrLt_le {a b : PyStr} (h : pyStrLt a b = true) : pyStrLe a b = true := by
  simp only [pyStrLe, Bool.not_eq_true']
  exact pyStrLt_asymm a b h

theorem pyStrLe_of_not_le {a b : PyStr} (h : pyStrLe a b = false) : pyStrLe b a = true := by
  simp only [pyStrLe] at h
  exact pyStrLt_le (by simpa using h)

/-! ### Deduplication lemmas -/

theorem pyDedupF_subset {α β : Type} [DecidableEq β] (key : α → β) :
    ∀ (l : List α) (seen : List β) (r : α), r ∈ pyDedupF key seen l → r ∈ l := by
  intro l
  induction l with
  | nil => intro seen r h; simp [pyDedupF] at h
  | cons x xs ih =>
    intro seen r h
    simp only [pyDedupF] at h
    by_cases hx : key x ∈ seen
    · simp only [if_pos hx] at h
      exact List.mem_cons_of_mem x (ih seen r h)
    · simp only [if_neg hx, List.mem_cons] at h
      rcases h with h | h
      · exact h ▸ List.mem_cons_self x xs
      · exact List.mem_cons_of_mem x (ih _ r h)

theorem pyDedupF_first {α β : Type} [DecidableEq β] (key : α → β) :
    ∀ (l : List α) (seen : List β) (r : α), r ∈ pyDedupF key seen l →
      key r ∉ seen ∧ ∃ l1 l2, l = l1 ++ r :: l2 ∧ ∀ x ∈ l1, key x ≠ key r := by
  intro l
  induction l with
  | nil => intro seen r h; simp [pyDedupF] at h
  | cons x xs ih =>
    intro seen r h
    simp only [pyDedupF] at h
    by_cases hx : key x ∈ seen
    · simp only [if_pos hx] at h
      obtain ⟨hns, l1, l2, heq, hne⟩ := ih seen r h
      refine ⟨hns, x :: l1, l2, by simp [heq], ?_⟩
      intro z hz
      rcases List.mem_cons.mp hz with hz | hz
      · subst hz
        intro hcontra
        exact hns (hcontra ▸ hx)
      · exact hne z hz
    · simp only [if_neg hx, List.mem_cons] at h
      rcases h with h | h
      · subst h
        exact ⟨hx, [], xs, rfl, by simp⟩
      · obtain ⟨hns, l1, l2, heq, hne⟩ := ih _ r h
        have hrx : key r ≠ key x := by
          intro hcontra
          exact hns (by simp [hcontra])
        refine ⟨fun hc => hns (by simp [hc]), x :: l1, l2, by simp [heq], ?_⟩
        intro z hz
        rcases List.mem_cons.mp hz with hz | hz
        · subst hz; exact fun hc => hrx hc.symm
        · exact hne z hz

theorem pyDedupF_nodup {α β : Type} [DecidableEq β] (key : α → β) :
    ∀ (l : List α) (seen : List β),
      ((pyDedupF key seen l).map key).Nodup ∧
      ∀ k ∈ (pyDedupF key seen l).map key, k ∉ seen := by
  intro l
  induction l with
  | nil => intro seen; simp [pyDedupF]
  | cons x xs ih =>
    intro seen
    simp only [pyDedupF]
    by_cases hx : key x ∈ seen
    · simp only [if_pos hx]
      exact ih seen
    · simp only [if_neg hx, List.map_cons, List.nodup_cons]
      obtain ⟨hnd, hnm⟩ := ih (key x :: seen)
      refine ⟨⟨fun hc => ?_, hnd⟩, ?_⟩
      · exact (hnm _ hc) (by simp)
      · intro k hk
        rcases List.mem_cons.mp hk with hk | hk
        · exact hk ▸ hx
        · intro hc
          exact (hnm k hk) (by simp [hc])

theorem pyDedupF_map_key {α β : Type} [DecidableEq β] (key : α → β) :
    ∀ (l : List α) (seen : List β),
      (pyDedupF key seen l).map key = pyDedupF id seen (l.map key) := by
  intro l
  induction l with
  | nil => intro seen; simp [pyDedupF]
  | cons x xs ih =>
    intro seen
    simp only [pyDedupF, List.map_cons]
    by_cases hx : key x ∈ seen
    · simp only [id, if_pos hx]
      exact ih seen
    · simp only [id, if_neg hx, List.map_cons]
      rw [ih (key x :: seen)]

theorem pyDedupF_idem {β : Type} [DecidableEq β] :
    ∀ (l : List β) (seen : List β),
      pyDedupF id seen (pyDedupF id seen l) = pyDedupF id seen l := by
  intro l
  induction l with
  | nil => intro seen; simp [pyDedupF]
  | cons x xs ih =>
    intro seen
    simp only [pyDedupF]
    by_cases hx : (id x : β) ∈ seen
    · simp only [if_pos hx]
      exact ih seen
    · simp only [if_neg hx, pyDedupF, if_neg hx]
      rw [ih (id x :: seen)]

theorem pyDedupF_nil_iff {α β : Type} [DecidableEq β] (key : α → β) :
    ∀ (l : List α), pyDedupF key [] l = [] ↔ l = [] := by
  intro l
  cases l with
  | nil => simp [pyDedupF]
  | cons x xs =>
    simp only [pyDedupF, List.not_mem_nil, if_neg (List.not_mem_nil (key x))]
    constructor
    · intro h; cases h
    · intro h; cases h

/-! ### Dict lemmas -/

theorem pyDictGet_set_same {α : Type} (k : String) (v : α) :
    ∀ d : PyDict α, pyDictGet (pyDictSet d k v) k = some v := by
  intro d
  induction d with
  | nil => simp [pyDictSet, pyDictGet]
  | cons p rest ih =>
    obtain ⟨k0, v0⟩ := p
    simp only [pyDictSet]
    by_cases h : k0 = k
    · simp [pyDictGet, h]
    · simp [pyDictGet, h, ih]

theorem pyDictGet_set_other {α : Type} (k k2 : String) (v : α) (hne : k2 ≠ k) :
    ∀ d : PyDict α, pyDictGet (pyDictSet d k v) k2 = pyDictGet d k2 := by
  intro d
  induction d with
  | nil =>
    simp only [pyDictSet, pyDictGet]
    rw [if_neg (fun h => hne h.symm)]
  | cons p rest ih =>
    obtain ⟨k0, v0⟩ := p
    simp only [pyDictSet]
    by_cases h : k0 = k
    · simp only [if_pos h, pyDictGet]
      have hk02 : ¬ k0 = k2 := fun hc => hne (hc ▸ h)
      rw [if_neg hk02, if_neg hk02]
    · simp only [if_neg h, pyDictGet]
      by_cases h2 : k0 = k2
      · rw [if_pos h2, if_pos h2]
      · rw [if_neg h2, if_neg h2, ih]

/-! ### Decimal rendering round-trip -/

theorem digitsVal_append_one (xs : PyStr) (c : Char) :
    digitsVal (xs ++ [c]) = 10 * digitsVal xs + digitVal c := by
  simp [digitsVal, List.foldl_append]

theorem digitChar10_isDigit {d : Nat} (h : d < 10) : (digitChar10 d).isDigit = true := by
  interval_cases d <;> decide

theorem digitVal_digitChar10 {d : Nat} (h : d < 10) : digitVal (digitChar10 d) = d := by
  interval_cases d <;> decide

theorem natRenderAux_spec : ∀ (fuel n : Nat), n < fuel →
    natRenderAux fuel n ≠ [] ∧ (natRenderAux fuel n).all Char.isDigit = true ∧
    digitsVal (natRenderAux fuel n) = n := by
  intro fuel
  induction fuel with
  | zero => intro n h; omega
  | succ f ih =>
    intro n h
    simp only [natRenderAux]
    by_cases h10 : n < 10
    · simp only [if_pos h10]
      refine ⟨by simp, ?_, ?_⟩
      · simp [digitChar10_isDigit h10]
      · simp [digitsVal, digitVal_digitChar10 h10]
    · simp only [if_neg h10]
      have hdiv : n / 10 < f := by
        have h1 : n / 10 < n := Nat.div_lt_self (by omega) (by omega)
        omega
      obtain ⟨hne, hdig, hval⟩ := ih (n / 10) hdiv
      refine ⟨by simp, ?_, ?_⟩
      · rw [List.all_append, hdig]
        simp [digitChar10_isDigit (Nat.mod_lt n (by omega : (0:Nat) < 10))]
      · rw [digitsVal_append_one, hval, digitVal_digitChar10 (Nat.mod_lt n (by omega : (0:Nat) < 10))]
        omega

theorem tsParse_tsRender (t : Nat) : tsParse (tsRender t) = some t := by
  obtain ⟨hne, hdig, hval⟩ := natRenderAux_spec (t + 1) t (by omega)
  have hdata : (tsRender t).data = natRender t := rfl
  simp only [tsParse, hdata, natRender, parseDigits]
  rw [if_pos ⟨hne, hdig⟩, hval]

/-! ### Timedelta lemma -/

theorem pyTimedeltaDays_lt_one (d : Int) : pyTimedeltaDays d < 1 ↔ d < 86400 := by
  have h0 : (0 : Int) ≤ 86400 := by norm_num
  have hp : (0 : Int) < 86400 := by norm_num
  simp only [pyTimedeltaDays, ticksPerDay]
  rw [Int.fdiv_eq_ediv d h0]
  constructor
  · intro h
    by_contra hc
    push_neg at hc
    have : (1 : Int) ≤ d / 86400 := by
      rw [Int.le_ediv_iff_mul_le hp]
      omega
    omega
  · intro h
    by_contra hc
    push_neg at hc
    have : (1 : Int) * 86400 ≤ d := by
      rw [← Int.le_ediv_iff_mul_le hp]
      omega
    omega

/-! ### Sorting lemmas -/

theorem mem_insertDescByDate (f x : Filing) :
    ∀ l : List Filing, x ∈ insertDescByDate f l ↔ x = f ∨ x ∈ l := by
  intro l
  induction l with
  | nil => simp [insertDescByDate]
  | cons g gs ih =>
    simp only [insertDescByDate]
    by_cases h : pyStrLe g.filingDate.data f.filingDate.data = true
    · simp only [if_pos h, List.mem_cons]
    · simp only [if_neg h, List.mem_cons, ih]
      tauto

theorem mem_sortDescByDate (x : Filing) :
    ∀ l : List Filing, x ∈ sortDescByDate l ↔ x ∈ l := by
  intro l
  induction l with
  | nil => simp [sortDescByDate]
  | cons f fs ih =>
    simp only [sortDescByDate, mem_insertDescByDate, List.mem_cons, ih]

theorem sortDescByDate_head_max :
    ∀ (l : List Filing) (f : Filing) (t : List Filing), sortDescByDate l = f :: t →
      ∀ g ∈ l, pyStrLe g.filingDate.data f.filingDate.data = true := by
  intro l
  induction l with
  | nil => intro f t h; simp [sortDescByDate] at h
  | cons a as ih =>
    intro f t h g hg
    simp only [sortDescByDate] at h
    cases hs : sortDescByDate as with
    | nil =>
      rw [hs] at h
      simp only [insertDescByDate] at h
      have hfa : f = a := by
        injection h with h1 h2
        exact h1.symm
      subst hfa
      rcases List.mem_cons.mp hg with hg | hg
      · subst hg; exact pyStrLe_refl _
      · have : g ∈ sortDescByDate as := (mem_sortDescByDate g as).mpr hg
        rw [hs] at this
        simp at this
    | cons h0 t0 =>
      rw [hs] at h
      have hmax0 : ∀ g2 ∈ as, pyStrLe g2.filingDate.data h0.filingDate.data = true :=
        ih h0 t0 hs
      simp only [insertDescByDate] at h
      by_cases hle : pyStrLe h0.filingDate.data a.filingDate.data = true
      · rw [if_pos hle] at h
        have hfa : f = a := by
          injection h with h1 h2
          exact h1.symm
        subst hfa
        rcases List.mem_cons.mp hg with hg | hg
        · subst hg; exact pyStrLe_refl _
        · exact pyStrLe_trans (hmax0 g hg) hle
      · rw [if_neg hle] at h
        have hfh : f = h0 := by
          injection h with h1 h2
          exact h1.symm
        subst hfh
        rcases List.mem_cons.mp hg with hg | hg
        · subst hg
          exact pyStrLe_of_not_le (by
            cases hb : pyStrLe f.filingDate.data g.filingDate.data
            · rfl
            · exact absurd hb hle)
        · exact hmax0 g hg

theorem get_latest_filing_spec (fs : List Filing) (f : Filing)
    (h : get_latest_filing fs = some f) :
    f ∈ fs ∧ ∀ g ∈ fs, pyStrLe g.filingDate.data f.filingDate.data = true := by
  simp only [get_latest_filing] at h
  cases hs : sortDescByDate fs with
  | nil => rw [hs] at h; cases h
  | cons x t =>
    rw [hs] at h
    have hfx : x = f := by injection h
    subst hfx
    constructor
    · have : x ∈ sortDescByDate fs := by rw [hs]; exact List.mem_cons_self x t
      exact (mem_sortDescByDate x fs).mp this
    · exact sortDescByDate_head_max fs x t hs

/-! ### Range/filterMap lemmas -/

theorem filterMap_range_extend {α : Type} (F : Nat → Option α) (n m : Nat)
    (hnm : n ≤ m) (hnone : ∀ i, n ≤ i → F i = none) :
    (List.range m).filterMap F = (List.range n).filterMap F := by
  have hm : m = n + (m - n) := by omega
  rw [hm, List.range_add, List.filterMap_append]
  have : ((List.range (m - n)).map (fun x => n + x)).filterMap F = [] := by
    rw [List.filterMap_map]
    rw [List.filterMap_eq_nil_iff]
    intro a _
    exact hnone (n + a) (by omega)
  rw [this, List.append_nil]

/-! ### Date-order lemmas -/

theorem dateLt_iff (a b : Nat × Nat × Nat) : dateLt a b = true ↔
    (a.1 < b.1 ∨ (a.1 = b.1 ∧ (a.2.1 < b.2.1 ∨ (a.2.1 = b.2.1 ∧ a.2.2 < b.2.2)))) := by
  simp [dateLt]

theorem dateLt_irrefl (a : Nat × Nat × Nat) : dateLt a a = false := by
  have hn : ¬ (dateLt a a = true) := by
    rw [dateLt_iff]; omega
  cases h : dateLt a a
  · rfl
  · exact absurd h hn

theorem dateLt_trans {a b c : Nat × Nat × Nat} (h1 : dateLt a b = true)
    (h2 : dateLt b c = true) : dateLt a c = true := by
  rw [dateLt_iff] at h1 h2 ⊢
  omega

theorem dateLt_total {a b : Nat × Nat × Nat} (h : dateLt a b = false) :
    dateLt b a = true ∨ a = b := by
  by_cases hb : dateLt b a = true
  · exact Or.inl hb
  · right
    have hf1 : ¬ (a.1 < b.1 ∨ (a.1 = b.1 ∧ (a.2.1 < b.2.1 ∨ (a.2.1 = b.2.1 ∧ a.2.2 < b.2.2)))) := by
      rw [← dateLt_iff, h]; simp
    have hf2 : ¬ (b.1 < a.1 ∨ (b.1 = a.1 ∧ (b.2.1 < a.2.1 ∨ (b.2.1 = a.2.1 ∧ b.2.2 < a.2.2)))) := by
      rw [← dateLt_iff]; exact hb
    obtain ⟨a1, a2, a3⟩ := a
    obtain ⟨b1, b2, b3⟩ := b
    simp only [Prod.mk.injEq]
    simp only at hf1 hf2
    omega

/-! ### First-time-filer scan lemmas -/

theorem cftfStep_eq (tY tQ : Int) (acc : Option ((Nat × Nat × Nat) × String))
    (fd : String × String) :
    cftfStep tY tQ acc fd =
      match priorOf tY tQ fd with
      | none => acc
      | some ymd => updMin acc ymd := by
  simp only [cftfStep, priorOf, updMin, fmtFiscal]
  by_cases h1 : fd.1 = "13F-HR" ∨ fd.1 = "13F-HR/A"
  · rw [if_pos h1, if_pos h1]
    cases hp : parseDate fd.2.data with
    | none => rfl
    | some ymd =>
      by_cases h2 : fiscalLt (fiscalOf ymd.1 ymd.2.1) (tY, tQ) = true
      · simp only [if_pos h2]
      · simp only [if_neg h2]
  · rw [if_neg h1, if_neg h1]

theorem foldl_cftf (tY tQ : Int) : ∀ (l : List (String × String))
    (acc : Option ((Nat × Nat × Nat) × String)),
    l.foldl (cftfStep tY tQ) acc = (l.filterMap (priorOf tY tQ)).foldl updMin acc := by
  intro l
  induction l with
  | nil => intro acc; rfl
  | cons fd rest ih =>
    intro acc
    simp only [List.foldl_cons, List.filterMap_cons]
    rw [cftfStep_eq]
    cases hp : priorOf tY tQ fd with
    | none => simp only [ih]
    | some ymd => simp only [List.foldl_cons, ih]

theorem updMin_some (x : (Nat × Nat × Nat) × String) (d : Nat × Nat × Nat) :
    ∃ y, updMin (some x) d = some y := by
  simp only [updMin]
  by_cases h : dateLt d x.1 = true
  · exact ⟨_, by rw [if_pos h]⟩
  · exact ⟨x, by rw [if_neg h]⟩

theorem foldl_updMin_ne_none : ∀ (ds : List (Nat × Nat × Nat))
    (x : (Nat × Nat × Nat) × String), ds.foldl updMin (some x) ≠ none := by
  intro ds
  induction ds with
  | nil => intro x h; cases h
  | cons d rest ih =>
    intro x
    simp only [List.foldl_cons]
    obtain ⟨y, hy⟩ := updMin_some x d
    rw [hy]
    exact ih y

theorem foldl_updMin_min : ∀ (ds : List (Nat × Nat × Nat)) (d0 : Nat × Nat × Nat),
    ∃ m, ds.foldl updMin (some (d0, fmtFiscal d0)) = some (m, fmtFiscal m) ∧
      (m = d0 ∨ m ∈ ds) ∧ (∀ e, (e = d0 ∨ e ∈ ds) → dateLt e m = false) := by
  intro ds
  induction ds with
  | nil =>
    intro d0
    refine ⟨d0, rfl, Or.inl rfl, ?_⟩
    intro e he
    rcases he with he | he
    · subst he; exact dateLt_irrefl e
    · simp at he
  | cons d1 rest ih =>
    intro d0
    simp only [List.foldl_cons, updMin]
    by_cases h : dateLt d1 d0 = true
    · rw [if_pos h]
      obtain ⟨m, hm, hmem, hmin⟩ := ih d1
      refine ⟨m, hm, ?_, ?_⟩
      · rcases hmem with hm1 | hm1
        · right; rw [hm1]; exact List.mem_cons_self d1 rest
        · right; exact List.mem_cons_of_mem d1 hm1
      · intro e he
        rcases he with he | he
        · subst he
          cases hb : dateLt e m
          · rfl
          · exfalso
            have hd1m := hmin d1 (Or.inl rfl)
            have : dateLt d1 m = true := dateLt_trans h hb
            rw [hd1m] at this
            cases this
        · rcases List.mem_cons.mp he with he | he
          · subst he; exact hmin e (Or.inl rfl)
          · exact hmin e (Or.inr he)
    · rw [if_neg h]
      obtain ⟨m, hm, hmem, hmin⟩ := ih d0
      refine ⟨m, hm, ?_, ?_⟩
      · rcases hmem with hm1 | hm1
        · exact Or.inl hm1
        · right; exact List.mem_cons_of_mem d1 hm1
      · intro e he
        rcases he with he | he
        · exact hmin e (Or.inl he)
        · rcases List.mem_cons.mp he with he | he
          · subst he
            cases hb : dateLt e m
            · rfl
            · exfalso
              have hd0m := hmin d0 (Or.inl rfl)
              have hfalse : dateLt e d0 = false := by
                cases hx : dateLt e d0
                · rfl
                · exact absurd hx h
              rcases dateLt_total hfalse with h2 | h2
              · have h3 : dateLt d0 m = true := dateLt_trans h2 hb
                rw [hd0m] at h3
                cases h3
              · rw [h2] at hb
                rw [hb] at hd0m
                cases hd0m
          · exact hmin e (Or.inr he)

/-! ## Claim theorems -/

/-- C4: the claim says the three voting-authority counts are extracted
from the sub-elements nested one level below the `votingAuthority` parent
and are non-negative integers.  The code instead reads the text of the
`votingAuthority` parent itself (empty for a nested element) and passes
the strings `"sole"`/`"shared"`/`"none"` as the `safe_int` *default*, so
on a schema-conformant row (whose `Sole`/`Shared`/`None` children hold
the integers 500/0/0, as the last three conjuncts show) every voting
field of the extracted holding is a string, not an integer. -/
theorem c4_voting_extraction_eval :
    (extract_holding_from_xml c4Info).map
      (fun r => (r.voting_authority_sole, r.voting_authority_shared, r.voting_authority_none)) =
      some (Cell.cstr "sole", Cell.cstr "shared", Cell.cstr "none") ∧
    getTextNs c4Info "Sole" "" = "500" ∧
    getTextNs c4Info "Shared" "" = "0" ∧
    getTextNs c4Info "None" "" = "0" :=
  ⟨rfl, rfl, rfl, rfl⟩

/-- C5: the holdings filter is a pure predicate on the count: a supplied
`(min,max)` range overrides separately supplied bounds, the filter passes
iff the count is within the effective bounds, and with no bounds it
always passes; in particular count 75 with range (10,50) fails and
count 30 with range (10,50) passes. -/
theorem c5_holdings_filter :
    (∀ (num : Int) (minH maxH : Option Int) (btw : Option (Int × Int)),
      passes_holdings_filters num minH maxH btw = true ↔
        (match btw with
         | some p => p.1 ≤ num ∧ num ≤ p.2
         | none =>
           (∀ m, minH = some m → m ≤ num) ∧ (∀ m, maxH = some m → num ≤ m))) ∧
    passes_holdings_filters 75 none none (some (10, 50)) = false ∧
    passes_holdings_filters 30 none none (some (10, 50)) = true := by
  refine ⟨?_, rfl, rfl⟩
  intro num minH maxH btw
  cases btw with
  | some p =>
    obtain ⟨lo, hi⟩ := p
    by_cases h1 : num < lo
    · simp [passes_holdings_filters, h1]
      try omega
    · by_cases h2 : num > hi
      · simp [passes_holdings_filters, h1, h2]
        try omega
      · simp [passes_holdings_filters, h1, h2]
        try omega
  | none =>
    cases minH with
    | none =>
      cases maxH with
      | none => simp [passes_holdings_filters]
      | some hi =>
        by_cases h2 : num > hi
        · simp [passes_holdings_filters, h2]
          try omega
        · simp [passes_holdings_filters, h2]
          try omega
    | some lo =>
      by_cases h1 : num < lo
      · simp [passes_holdings_filters, h1]
        try omega
      · cases maxH with
        | none =>
          simp [passes_holdings_filters, h1]
          try omega
        | some hi =>
          by_cases h2 : num > hi
          · simp [passes_holdings_filters, h1, h2]
            try omega
          · simp [passes_holdings_filters, h1, h2]
            try omega

/-- C7 counterexample: `parse_quarter` accepts `"2024X4"` — a string
whose fifth character is not `Q` — returning `(2024, 4)`, while the claim
requires every string that is not well-formed `YYYYQn` to be rejected. -/
theorem c7_quarter_position_counterexample :
    parse_quarter "2024X4" = .ok (2024, 4) ∧ "2024X4".data.getD 4 ' ' ≠ 'Q' :=
  ⟨rfl, by decide⟩

/-- C7 (amended): `parse_quarter` accepts exactly the 6-character strings
whose first four characters parse as a Python int in `2000..2030` and
whose sixth character parses as a Python int in `1..4`; the fifth
character (the `Q` position) is never inspected.  Every other input is
rejected with a `ValueError`. -/
theorem c7_parse_quarter_amended :
    ∀ (s : String) (y q : Int),
      parse_quarter s = .ok (y, q) ↔
        (s.data.length = 6 ∧ pyIntParse (s.data.take 4) = some y ∧ 2000 ≤ y ∧ y ≤ 2030 ∧
         pyIntParse (s.data.drop 5) = some q ∧ 1 ≤ q ∧ q ≤ 4) := by
  intro s y q
  by_cases hl : s.length = 6
  · cases hy : pyIntParse (s.data.take 4) with
    | none =>
      have hval : parse_quarter s = .error ("Invalid quarter format: " ++ s) := by
        simp [parse_quarter, hl, hy]
      rw [hval]
      constructor
      · intro h; exact Except.noConfusion h
      · rintro ⟨_, hy2, _⟩; exact Option.noConfusion hy2
    | some year =>
      cases hq : pyIntParse (s.data.drop 5) with
      | none =>
        have hval : parse_quarter s = .error ("Invalid quarter format: " ++ s) := by
          simp [parse_quarter, hl, hy, hq]
        rw [hval]
        constructor
        · intro h; exact Except.noConfusion h
        · rintro ⟨_, _, _, _, hq2, _⟩; exact Option.noConfusion hq2
      | some quarter =>
        by_cases hq14 : quarter < 1 ∨ quarter > 4
        · have hval : parse_quarter s = .error ("Invalid quarter format: " ++ s) := by
            simp [parse_quarter, hl, hy, hq, hq14]
          rw [hval]
          constructor
          · intro h; exact Except.noConfusion h
          · rintro ⟨_, hy2, _, _, hq2, hq3, hq4⟩
            injection hq2 with hq2
            omega
        · by_cases hyr : year < 2000 ∨ year > 2030
          · have hval : parse_quarter s = .error ("Invalid quarter format: " ++ s) := by
              simp [parse_quarter, hl, hy, hq, hq14, hyr]
            rw [hval]
            constructor
            · intro h; exact Except.noConfusion h
            · rintro ⟨_, hy2, hy3, hy4, _⟩
              injection hy2 with hy2
              omega
          · have hval : parse_quarter s = .ok (year, quarter) := by
              simp [parse_quarter, hl, hy, hq, hq14, hyr]
            rw [hval]
            constructor
            · intro h
              injection h with h
              injection h with h1 h2
              subst h1; subst h2
              exact ⟨hl, rfl, by omega, by omega, rfl, by omega, by omega⟩
            · rintro ⟨_, hy2, _, _, hq2, _, _⟩
              injection hy2 with hy2
              injection hq2 with hq2
              subst hy2; subst hq2
              rfl
  · have hval : parse_quarter s = .error "Quarter must be in format YYYYQn (e.g., 2024Q4)" := by
      simp [parse_quarter, hl]
    rw [hval]
    constructor
    · intro h; exact Except.noConfusion h
    · rintro ⟨h, _⟩; exact absurd h hl

/-- C8 counterexample: a cache file that exists but cannot be read (the
`open` raises an `OSError`) makes `Cache.get` raise rather than report a
miss — only `json.JSONDecodeError` and `ValueError` are caught — while
the claim says corruption/unreadability is never propagated. -/
theorem c8_unreadable_counterexample :
    cacheGet (some .unreadable) 0 = .error .osError := rfl

/-- C8 (amended): `Cache.get` returns absent whenever the stored
timestamp is at least 24 hours old even though the file exists, and on a
corrupt file (undecodable JSON or a malformed timestamp) the failure is
treated as a miss and never propagated; `Cache.set` stamps the payload
with the current time.  (A file that exists but cannot be *read* raises
an uncaught `OSError` instead — see the counterexample.) -/
theorem c8_cache_ttl_amended :
    (∀ (d : PyDict String) (now : Nat) (ts : String) (t : Nat),
      pyDictGet d "timestamp" = some ts → tsParse ts = some t →
      86400 ≤ (now : Int) - (t : Int) →
      cacheGet (some (.good d)) now = .ok none) ∧
    (∀ now : Nat, cacheGet (some .corrupt) now = .ok none) ∧
    (∀ (d : PyDict String) (now : Nat) (ts : String),
      pyDictGet d "timestamp" = some ts → tsParse ts = none →
      cacheGet (some (.good d)) now = .ok none) ∧
    (∀ (data : PyDict String) (now : Nat),
      pyDictGet (cacheSet data now).1 "timestamp" = some (tsRender now)) := by
  refine ⟨?_, fun _ => rfl, ?_, ?_⟩
  · intro d now ts t hget hparse hstale
    simp only [cacheGet, hget, hparse]
    rw [if_neg]
    rw [pyTimedeltaDays_lt_one]
    omega
  · intro d now ts hget hparse
    simp only [cacheGet, hget, hparse]
  · intro data now
    exact pyDictGet_set_same _ _ data

/-- C8 witness: a stamped entry two days old is reported absent, and an
entry with an unparsable timestamp is a miss, by the amended theorem. -/
theorem c8_cache_ttl_witness :
    cacheGet (some (.good [("timestamp", tsRender 0)])) 172800 = .ok none ∧
    cacheGet (some (.good [("timestamp", "bad")])) 5 = .ok none := by
  constructor
  · exact c8_cache_ttl_amended.1 [("timestamp", tsRender 0)] 172800 (tsRender 0) 0 rfl
      (tsParse_tsRender 0) (by norm_num)
  · exact c8_cache_ttl_amended.2.2.1 [("timestamp", "bad")] 5 "bad" rfl rfl

/-- C9 counterexample: when every attempt fails, `_make_request` raises,
but `get_company_submissions` catches the exception and returns the empty
dict — the fetch layer for submissions *does* swallow the final failure,
contrary to the claim. -/
theorem c9_swallow_counterexample :
    make_request failOracle = .error (.retryError .transport) ∧
    get_company_submissions failOracle = none :=
  ⟨rfl, rfl⟩

/-- C9 (amended): `_make_request` makes at most 3 attempts (its result
depends only on the first three oracle outcomes), stops at the first
success (a successful-but-empty response is returned, not retried),
retries only transport/HTTP-status exceptions, and after three failures
surfaces the final exception (wrapped in a tenacity `RetryError`); but
`get_company_submissions` catches any such error and returns the empty
payload. -/
theorem c9_fetch_retries_amended :
    (∀ (o : Nat → Except Unit HttpResponse) (r : HttpResponse),
      attemptOnce o 0 = .ok r → make_request o = .ok r) ∧
    (∀ (o o2 : Nat → Except Unit HttpResponse), (∀ i, i < 3 → o i = o2 i) →
      make_request o = make_request o2) ∧
    (∀ (o : Nat → Except Unit HttpResponse) (e0 e1 e2 : ReqError),
      attemptOnce o 0 = .error e0 → attemptOnce o 1 = .error e1 →
      attemptOnce o 2 = .error e2 → make_request o = .error (.retryError e2)) ∧
    (∀ (o : Nat → Except Unit HttpResponse) (e : FetchError),
      make_request o = .error e → get_company_submissions o = none) := by
  refine ⟨?_, ?_, ?_, ?_⟩
  · intro o r h
    simp only [make_request, h]
  · intro o o2 h
    simp only [make_request, attemptOnce, h 0 (by omega), h 1 (by omega), h 2 (by omega)]
  · intro o e0 e1 e2 h0 h1 h2
    simp only [make_request, h0, h1, h2]
  · intro o e h
    simp only [get_company_submissions, h]

/-- C9 witness: a successful empty response is returned on the first
attempt, and an all-failing oracle yields the empty payload, by the
amended theorem. -/
theorem c9_fetch_retries_witness :
    make_request emptyOkOracle = .ok { status := 200, json := none } ∧
    get_company_submissions failOracle = none := by
  constructor
  · exact c9_fetch_retries_amended.1 emptyOkOracle { status := 200, json := none } rfl
  · exact c9_fetch_retries_amended.2.2.2 failOracle (.retryError .transport) rfl

/-- C10: `Cache.set` mutates the dict of the caller in place — after the call
the dict holds a `timestamp` key with the current time while every other
key is untouched — the very same dict is written to disk, and a fresh
`get` returns the payload together with the added timestamp field. -/
theorem c10_cache_set_mutation :
    (∀ (data : PyDict String) (now : Nat),
      pyDictGet (cacheSet data now).1 "timestamp" = some (tsRender now)) ∧
    (∀ (data : PyDict String) (now : Nat) (k : String), k ≠ "timestamp" →
      pyDictGet (cacheSet data now).1 k = pyDictGet data k) ∧
    (∀ (data : PyDict String) (now : Nat),
      (cacheSet data now).2 = CacheFile.good (cacheSet data now).1) ∧
    (∀ (data : PyDict String) (now now2 : Nat), (now2 : Int) - (now : Int) < 86400 →
      cacheGet (some (cacheSet data now).2) now2 = .ok (some (cacheSet data now).1)) := by
  refine ⟨?_, ?_, fun _ _ => rfl, ?_⟩
  · intro data now
    exact pyDictGet_set_same _ _ data
  · intro data now k hk
    exact pyDictGet_set_other _ k _ hk data
  · intro data now now2 hfresh
    simp only [cacheSet, cacheGet, pyDictGet_set_same, tsParse_tsRender]
    rw [if_pos]
    rw [pyTimedeltaDays_lt_one]
    exact hfresh

/-- C10 witness: setting a one-key payload at time 7 leaves the key
readable, and a get one tick later returns the stamped dict, by the
mutation theorem. -/
theorem c10_cache_set_mutation_witness :
    pyDictGet (cacheSet [("a", "b")] 7).1 "a" = some "b" ∧
    cacheGet (some (cacheSet [("a", "b")] 7).2) 8 = .ok (some (cacheSet [("a", "b")] 7).1) := by
  constructor
  · have h := c10_cache_set_mutation.2.1 [("a", "b")] 7 "a" (by decide)
    rw [h]
    rfl
  · exact c10_cache_set_mutation.2.2.2 [("a", "b")] 7 8 (by norm_num)

/-! ### Cleaning-pass lemmas (for C1) -/

theorem cleanPass_cusip_cstr (rows : List Row) :
    ∀ r ∈ cleanPass rows, ∃ s, r.cusip = Cell.cstr s := by
  intro r hr
  simp only [cleanPass, List.mem_map] at hr
  obtain ⟨r0, _, hr0⟩ := hr
  exact ⟨_, by rw [← hr0]⟩

theorem filterMap_cusip_eq_map :
    ∀ df : List Row, (∀ r ∈ df, r.cusip ≠ Cell.na) →
      df.filterMap (fun r => if r.cusip = Cell.na then none else some r.cusip) =
        df.map (fun r => r.cusip) := by
  intro df
  induction df with
  | nil => intro _; rfl
  | cons r rest ih =>
    intro h
    simp only [List.filterMap_cons, List.map_cons]
    rw [if_neg (h r (List.mem_cons_self r rest))]
    rw [ih (fun x hx => h x (List.mem_cons_of_mem r hx))]

set_option maxHeartbeats 8000000 in
set_option maxRecDepth 100000 in
/-- C1 counterexample: on a raw XML document whose information table
repeats a CUSIP, `parse_information_table` returns *two* rows with that
CUSIP (the XML path never calls `_clean_dataframe`, so no deduplication
happens), while `get_holdings_count` still reports 1 distinct holding. -/
theorem c1_xml_duplicate_counterexample :
    (parse_information_table c1Env c1Doc.data).map (fun r => r.cusip) =
      [Cell.cstr "037833100", Cell.cstr "037833100"] ∧
    get_holdings_count (parse_information_table c1Env c1Doc.data) = 1 :=
  ⟨rfl, rfl⟩

/-- C1 (amended): tables that pass through `_clean_dataframe` (the
text/HTML extraction paths) are deduplicated by CUSIP with the first
occurrence winning — the CUSIP column of the cleaned table has no duplicates
and every kept row is the first pre-dedup row bearing its CUSIP — and
`get_holdings_count` always returns the number of *distinct* CUSIPs, not
the raw row count; the XML extraction path, however, returns its rows
without deduplication (see the counterexample). -/
theorem c1_dedup_and_count_amended :
    ∀ rows : List Row,
      ((clean_dataframe rows).map (fun r => r.cusip)).Nodup ∧
      (∀ r ∈ clean_dataframe rows, ∃ l1 l2, cleanPass rows = l1 ++ r :: l2 ∧
        ∀ x ∈ l1, x.cusip ≠ r.cusip) ∧
      get_holdings_count (clean_dataframe rows) =
        (pyDedupF id [] ((cleanPass rows).map (fun r => r.cusip))).length := by
  intro rows
  refine ⟨(pyDedupF_nodup (fun r => r.cusip) (cleanPass rows) []).1, ?_, ?_⟩
  · intro r hr
    simp only [clean_dataframe] at hr
    obtain ⟨-, l1, l2, heq, hne⟩ :=
      pyDedupF_first (fun r => r.cusip) (cleanPass rows) [] r hr
    exact ⟨l1, l2, heq, hne⟩
  · simp only [get_holdings_count, clean_dataframe]
    by_cases hnil : cleanPass rows = []
    · rw [hnil]
      simp [pyDedupF]
    · have hC : pyDedupF (fun r => r.cusip) [] (cleanPass rows) ≠ [] := by
        rw [Ne, pyDedupF_nil_iff]
        exact hnil
      rw [if_neg (by simpa using hC)]
      rw [filterMap_cusip_eq_map _ ?hna]
      · rw [pyDedupF_map_key, pyDedupF_idem]
      case hna =>
        intro r hr
        obtain ⟨s, hs⟩ := cleanPass_cusip_cstr rows r
          (pyDedupF_subset (fun r => r.cusip) (cleanPass rows) [] r hr)
        rw [hs]
        intro hcon
        cases hcon

/-- C1 witness: on a table repeating CUSIP `AAA`, the kept `AAA` row is
the first pre-dedup occurrence, by the amended theorem. -/
theorem c1_dedup_witness :
    ∃ l1 l2, cleanPass demoRows = l1 ++ demoRow "AAA" "X" :: l2 ∧
      ∀ x ∈ l1, x.cusip ≠ (demoRow "AAA" "X").cusip :=
  (c1_dedup_and_count_amended demoRows).2.1 (demoRow "AAA" "X") (by decide)

/-- C2 counterexample: with the `primaryDocument` array empty but the
other three arrays of length one, the reconstruction the claim describes
(truncate to the shortest of the four arrays) keeps no record, while the
code keeps the record with an empty-string primary document. -/
theorem c2_shortest_array_counterexample :
    findTargetFilingsClaimSpec rC2 2024 1 "111" = [] ∧
    find_target_filings (some rC2) 2024 1 "111" =
      [mkFilingObj "13F-HR" "2024-05-01" "0001-23-456" "" "111"] :=
  ⟨rfl, rfl⟩

/-- C2 (amended): target-filing selection reconstructs records
index-by-index discarding indices beyond the shortest of the
form/filing-date/accession arrays (a missing primary document defaults to
the empty string, it does not discard the record), keeps exactly the
`13F-HR`/`13F-HR/A` records with a parsable date mapping to the requested
fiscal quarter, returns nothing on a missing/empty payload, and the
latest-filing selection returns a member of the list whose filing-date
string is lexicographically greatest. -/
theorem c2_target_selection_amended :
    (∀ (r : RecentFilings) (tY tQ : Int) (cik : String),
      find_target_filings (some r) tY tQ cik = findTargetFilingsAmendedSpec r tY tQ cik) ∧
    (∀ (tY tQ : Int) (cik : String), find_target_filings none tY tQ cik = []) ∧
    (∀ (fs : List Filing) (f : Filing), get_latest_filing fs = some f →
      f ∈ fs ∧ ∀ g ∈ fs, pyStrLe g.filingDate.data f.filingDate.data = true) := by
  refine ⟨?_, fun _ _ _ => rfl, fun fs f h => get_latest_filing_spec fs f h⟩
  intro r tY tQ cik
  simp only [find_target_filings, findTargetFilingsAmendedSpec]
  rw [filterMap_range_extend
    (fun i => if i < r.filingDate.length ∧ i < r.accessionNumber.length then
        targetRecord tY tQ cik (r.form.getD i "") (r.filingDate.getD i "")
          (r.accessionNumber.getD i "")
          (if i < r.primaryDocument.length then r.primaryDocument.getD i "" else "")
      else none)
    (min r.form.length (min r.filingDate.length r.accessionNumber.length))
    r.form.length (by omega)
    (by
      intro i h1
      simp only []
      by_cases hcond : i < r.filingDate.length ∧ i < r.accessionNumber.length
      · rw [if_pos hcond]
        have hform : r.form.length ≤ i := by omega
        rw [List.getD_eq_default _ _ hform]
        rfl
      · rw [if_neg hcond])]
  refine List.filterMap_congr ?_
  intro i hi
  rw [List.mem_range] at hi
  rw [if_pos ⟨by omega, by omega⟩]

/-- C2 witness: on the short-primary-document payload the code equals the
amended reconstruction, and among two filings for the same quarter the
one dated `2024-11-15` is selected as latest, by the amended theorem. -/
theorem c2_target_selection_witness :
    find_target_filings (some rC2) 2024 1 "111" =
      findTargetFilingsAmendedSpec rC2 2024 1 "111" ∧
    (fDemo2 ∈ [fDemo1, fDemo2] ∧
      ∀ g ∈ [fDemo1, fDemo2], pyStrLe g.filingDate.data fDemo2.filingDate.data = true) :=
  ⟨c2_target_selection_amended.1 rC2 2024 1 "111",
   c2_target_selection_amended.2.2 [fDemo1, fDemo2] fDemo2 rfl⟩

/-- C3: first-time-filer detection returns `(true, none)` exactly when
the payload has no `13F-HR`/`13F-HR/A` record with a parsable date whose
fiscal quarter is strictly earlier than the requested one (in particular
on a missing/empty payload), and otherwise `(false, q)` where `q` is the
fiscal-quarter string of the earliest such prior record, under the
non-calendar month-to-quarter mapping. -/
theorem c3_first_time_filer :
    (∀ tY tQ : Int, check_first_time_filer none tY tQ = (true, none)) ∧
    (∀ (r : RecentFilings) (tY tQ : Int),
      check_first_time_filer (some r) tY tQ = (true, none) ↔
        qualifyingPriorDates r tY tQ = []) ∧
    (∀ (r : RecentFilings) (tY tQ : Int) (d : Nat × Nat × Nat),
      d ∈ qualifyingPriorDates r tY tQ →
      (∀ e ∈ qualifyingPriorDates r tY tQ, dateLt e d = false) →
      check_first_time_filer (some r) tY tQ = (false, some (fmtFiscal d))) := by
  refine ⟨fun _ _ => rfl, ?_, ?_⟩
  · intro r tY tQ
    simp only [check_first_time_filer, foldl_cftf]
    rw [show (r.form.zip r.filingDate).filterMap (priorOf tY tQ) =
      qualifyingPriorDates r tY tQ from rfl]
    cases hds : qualifyingPriorDates r tY tQ with
    | nil => simp
    | cons d0 rest =>
      simp only [List.foldl_cons]
      have h1 : updMin none d0 = some (d0, fmtFiscal d0) := rfl
      rw [h1]
      constructor
      · intro h
        exfalso
        have h2 := foldl_updMin_ne_none rest (d0, fmtFiscal d0)
        have h3 : (rest.foldl updMin (some (d0, fmtFiscal d0))).isNone = true := by
          simpa using congrArg Prod.fst h
        rw [Option.isNone_iff_eq_none] at h3
        exact h2 h3
      · intro h
        simp at h
  · intro r tY tQ d hd hmin
    simp only [check_first_time_filer, foldl_cftf]
    rw [show (r.form.zip r.filingDate).filterMap (priorOf tY tQ) =
      qualifyingPriorDates r tY tQ from rfl]
    cases hds : qualifyingPriorDates r tY tQ with
    | nil =>
      rw [hds] at hd
      simp at hd
    | cons d0 rest =>
      rw [hds] at hd hmin
      simp only [List.foldl_cons]
      have h1 : updMin none d0 = some (d0, fmtFiscal d0) := rfl
      rw [h1]
      obtain ⟨m, hm, hmem, hminm⟩ := foldl_updMin_min rest d0
      rw [hm]
      have hd_in : d = d0 ∨ d ∈ rest := List.mem_cons.mp hd
      have hmd : dateLt m d = false := by
        apply hmin
        rcases hmem with h2 | h2
        · rw [h2]; exact List.mem_cons_self d0 rest
        · exact List.mem_cons_of_mem d0 h2
      have hdm : dateLt d m = false := hminm d hd_in
      have heq : m = d := by
        rcases dateLt_total hmd with h2 | h2
        · rw [hdm] at h2; cases h2
        · exact h2
      rw [heq]
      rfl

/-- C3 witness: a payload with one prior `13F-HR` filed `2023-08-15`
(fiscal 2023Q2) against target 2024Q4 yields `(false, "2023Q2")`, by the
main theorem. -/
theorem c3_first_time_filer_witness :
    check_first_time_filer (some rC3) 2024 4 = (false, some "2023Q2") := by
  have h := c3_first_time_filer.2.2 rC3 2024 4 (2023, 8, 15) (by decide) (by decide)
  rw [h]
  rfl

/-- C6: the document parser is total — every input yields a (possibly
empty) holdings table: when none of the three information-table start
tags occurs, section extraction returns the whole raw document; when the
extracted text is detected as XML but `ET.fromstring` raises, the parser
falls back to the text extractor on the same text; and text no extractor
can interpret yields the empty table rather than an error. -/
theorem c6_parser_never_raises_fallbacks :
    (∀ c : PyStr,
      strFind c "<ns1:informationTable".data = none →
      strFind c "<informationTable".data = none →
      strFind c "<ns1:infoTable".data = none →
      extract_information_table_section c = c) ∧
    (∀ (env : ParserEnv) (c : PyStr),
      detect_file_type (extract_information_table_section c) = .xml →
      env.fromstring (extract_information_table_section c) = none →
      parse_information_table env c = parse_txt env (extract_information_table_section c)) ∧
    parse_information_table env0 "hello world".data = [] := by
  refine ⟨?_, ?_, rfl⟩
  · intro c h1 h2 h3
    simp only [extract_information_table_section, extractPattern2, extractPattern3, h1, h2, h3]
  · intro env c hdet hfrom
    simp only [parse_information_table, hdet, parse_xml, hfrom]

/-- C6 witness: on the uninterpretable document `"hello world"` no tag is
found (extraction returns the document unchanged) and the XML parse
failure falls back to the text extractor, by the main theorem. -/
theorem c6_parser_witness :
    extract_information_table_section "hello world".data = "hello world".data ∧
    parse_information_table env0 "hello world".data =
      parse_txt env0 (extract_information_table_section "hello world".data) :=
  ⟨c6_parser_never_raises_fallbacks.1 "hello world".data rfl rfl rfl,
   c6_parser_never_raises_fallbacks.2.1 env0 "hello world".data rfl rfl⟩
